import Mathlib

/-!
Verification development for the Habit-Engine behavioral modeling pipeline.

The Python source is embedded shallowly:
* floats become exact rationals (`ℚ`); the only genuinely irrational
  operation, the rolling standard deviation (`pandas .std()`), is modelled
  with `Real.sqrt` over `ℝ`;
* pandas series become Lean lists, one entry per row, with `Option`
  marking `NaN` cells (filled by the final `fillna(0)` of the feature
  engineer);
* model objects (`is_trained` flag plus fitted artifact) become tagged
  states `untrained / trained f`, where `f` is the opaque fitted
  scikit-learn / lifelines artifact, passed to `train` as an explicit
  fitter argument so that theorems quantify over every possible fit
  outcome;
* Python dict results become inductive results (one constructor per dict
  shape) or literal association lists where the exact keys matter.

Daily records are passed to the pipeline sorted ascending by date with no
duplicate dates (the documented invariant of the aggregator); under that
invariant the defensive `sort_values('date')` of the source is the
identity, so the embeddings take the date-ordered list directly and the
theorems that need it carry an explicit sortedness hypothesis.
-/

/-! ## RecommendationEngine (src/processing/recommender.py) -/

inductive RecommendationType where
  | maintain
  | scale_down
  | recovery
  | anchoring
  | celebration
deriving DecidableEq, Repr

/-- The current-day feature row as read by the engine via `dict.get`:
`none` models an absent key. -/
structure RecentFeatures where
  sleep_duration_minutes : Option ℚ
  consecutive_misses : Option ℚ
deriving DecidableEq, Repr

structure EngineResponse where
  user_id : String
  date : String
  adherence_probability : ℚ
  burnout_risk_score : ℚ
  is_anomaly : Bool
  recommendation_type : RecommendationType
  message_title : String
  message_body : String
  suggested_action : String
  why_this_recommendation : List String
deriving DecidableEq, Repr

/-- Renders the metric value cited inside a reason string.  The Python
source formats with `%.1f` / `%.2f` / `%.1%`; the rounding itself is
irrelevant to every claim, so the embedding renders the exact rational. -/
def fmtQ (q : ℚ) : String :=
  toString q

namespace RecommendationEngine

/-- `generate_recommendation`: the priority cascade of recommender.py,
lines 27-94.  Python mutates `rec_type`/`title`/`body`/`action`/`reasons`
in the first matching branch of an `if/elif` chain and then builds the
response; the embedding is the equivalent chain returning the response
directly. -/
def generate_recommendation (user_id date_str : String)
    (adherence_prob burnout_risk : ℚ) (is_anomaly : Bool)
    (recent_features : RecentFeatures) : EngineResponse :=
  -- 0. SEVERE SLEEP DEPRIVATION (Hard Rule); default 8h if missing
  let current_sleep := recent_features.sleep_duration_minutes.getD 480
  let (rec_type, title, body, action, reasons) :=
    if current_sleep < 180 then
      (RecommendationType.recovery,
       "Sleep First, Train Later",
       "You got less than 3 hours of sleep. Training now is counter-productive and dangerous.",
       "Skip the workout. Go get a nap or go to bed early tonight.",
       ["Severe sleep deprivation detected (" ++ fmtQ (current_sleep / 60) ++ " hours).",
        "Cognitive and physical recovery is severely compromised."])
    -- 1. ANOMALY / ACUTE DISTRESS CHECK
    else if is_anomaly then
      (RecommendationType.recovery,
       "Check-in time",
       "We noticed some unusual patterns today. Everything okay?",
       "Log a quick mood check-in instead of a workout.",
       ["Behavioral anomaly detected (isolation forest)."])
    -- 2. BURNOUT RISK CHECK (High Hazard Score), threshold relative to baseline 1.0
    else if burnout_risk > 1.2 then
      (RecommendationType.scale_down,
       "Protect your energy",
       "Your stats suggest you're pushing hard. Let's avoid burnout.",
       "Do 50% of your planned duration today.",
       ["High burnout risk score (" ++ fmtQ burnout_risk ++ ").",
        "Recent effort ratio is unsustainable."])
    -- 3. LOW ADHERENCE (< 40%) - Reassurance & Reset
    else if adherence_prob < 0.4 then
      let missed_days := recent_features.consecutive_misses.getD 0
      let (t, b) :=
        if missed_days ≤ 7 then
          ("Don't break the chain",
           "You missed a few days, but it happens. The key is to get back to it immediately to keep your habit strong.")
        else
          ("Everything okay?",
           "We noticed you've been away for a bit. Don't worry—failures are just data points on the road to success. We can get back on the wagon today.")
      (RecommendationType.anchoring, t, b,
       "Start small: Just do 5 minutes of movement to break the seal.",
       ["Low adherence probability (" ++ fmtQ adherence_prob ++ ").",
        "Focus is on re-establishing the habit loop, not intensity."])
    -- 4. MODERATE-LOW ADHERENCE (40-50%) - Nudge to Push
    else if adherence_prob < 0.5 then
      (RecommendationType.maintain,
       "Time to Shift Gears",
       "You've missed a few days, but momentum is waiting for you. Try pushing a little harder today to get back on track.",
       "Commit to your standard session today—you can do this.",
       ["Adherence probability is borderline (" ++ fmtQ adherence_prob ++ ").",
        "A strong session today will reverse the negative trend."])
    -- 5. MODERATE-HIGH ADHERENCE (50-70%) - Encouragement
    else if adherence_prob ≤ 0.7 then
      (RecommendationType.maintain,
       "Good Work",
       "You are doing well! Hang in there and keep the momentum building.",
       "Stick to the plan. Consistency is compounding.",
       ["Stable adherence probability (" ++ fmtQ adherence_prob ++ ")."])
    -- 6. HIGH ADHERENCE (> 70%) - Praise
    else
      (RecommendationType.maintain,
       "Keep It Up!",
       "Excellent dedication. You're consistently showing up and the results show.",
       "Use this momentum to your advantage—great day for a PR or just enjoying the flow.",
       ["High adherence probability (" ++ fmtQ adherence_prob ++ ")."])
  { user_id := user_id
    date := date_str
    adherence_probability := adherence_prob
    burnout_risk_score := burnout_risk
    is_anomaly := is_anomaly
    recommendation_type := rec_type
    message_title := title
    message_body := body
    suggested_action := action
    why_this_recommendation := reasons }

end RecommendationEngine

/-- Evaluates an ordered list of (condition, outcome) rules; the first rule
whose condition holds wins, and the final `default` is the last,
always-matching row of the table. -/
def firstMatch (dflt : RecommendationType) :
    List (Bool × RecommendationType) → RecommendationType
  | [] => dflt
  | (c, t) :: rest => if c then t else firstMatch dflt rest

/-- The decision table of the claim: the seven-row priority table of
spec §4.5, in order, over the effective current-day sleep value. -/
def cascadeTable (adherence_prob burnout_risk : ℚ) (is_anomaly : Bool)
    (sleep : ℚ) : List (Bool × RecommendationType) :=
  [ (decide (sleep < 180), RecommendationType.recovery),
    (is_anomaly, RecommendationType.recovery),
    (decide (burnout_risk > 1.2), RecommendationType.scale_down),
    (decide (adherence_prob < 0.4), RecommendationType.anchoring),
    (decide (adherence_prob < 0.5), RecommendationType.maintain),
    (decide (adherence_prob ≤ 0.7), RecommendationType.maintain) ]

/-! ## FeatureEngineer (src/processing/features.py) -/

/-- One canonical daily record (`DailyBehavior`), restricted to the fields
the feature engineer reads.  `date` is the calendar day number:
consecutive integers are consecutive days and `date % 7` is the weekday
(0 = Monday, 6 = Sunday). -/
structure DailyBehavior where
  date : ℤ
  total_steps : ℚ
  exercise_minutes : ℚ
  exercise_done : Bool
  sleep_duration_minutes : ℚ
  data_missing_flag : Bool
deriving DecidableEq, Repr

/-- `series.shift(1)`: NaN (`none`) at position 0, the previous value
afterwards. -/
def shift1 (l : List α) : List (Option α) :=
  (List.range l.length).map fun i => if i = 0 then none else l[i - 1]?

/-- Mean of a window (pandas `.mean()`), used only on nonempty windows. -/
def qmean (w : List ℚ) : ℚ :=
  w.sum / (w.length : ℚ)

/-- Unbiased sample variance (the ddof = 1 convention of pandas `.std()`),
used only on windows of length at least 3. -/
def sampleVar (w : List ℚ) : ℚ :=
  (w.map fun x => (x - qmean w) ^ 2).sum / ((w.length : ℚ) - 1)

/-- Rolling standard deviation of a window, the square root of the
unbiased sample variance. -/
noncomputable def sampleStd (w : List ℚ) : ℝ :=
  Real.sqrt ((sampleVar w : ℚ) : ℝ)

/-- Positional rolling aggregation, `series.rolling(k, m).agg f` with
window size k and m minimum periods: entry i aggregates the window of the
last at most k values ending at position i, and is NaN (`none`) when that
window holds fewer than m values. -/
def rollingApply (k m : ℕ) (f : List ℚ → α) (l : List ℚ) : List (Option α) :=
  (List.range l.length).map fun i =>
    let w := (l.take (i + 1)).drop (i + 1 - k)
    if m ≤ w.length then some (f w) else none

/-- Single left-to-right pass producing one output per element while
carrying state; the shape of the cumulative-sum idioms of the source. -/
def scanMap (f : σ → α → σ × β) : σ → List α → List β
  | _, [] => []
  | s, x :: xs =>
    let p := f s x
    p.2 :: scanMap f p.1 xs

/-- One step of `(s != s.shift()).cumsum()`: state is (previous value,
current group id); the id advances when the value differs from the
previous one (and at position 0, where the shifted NaN compares
unequal). -/
def cgStep (st : Option ℕ × ℕ) (x : ℕ) : (Option ℕ × ℕ) × ℕ :=
  let g := if st.1 = some x then st.2 else st.2 + 1
  ((some x, g), g)

/-- `(s != s.shift()).cumsum()`: the group id of every position. -/
def changeGroupIds (l : List ℕ) : List ℕ :=
  scanMap cgStep (none, 0) l

/-- One step of `groupby(group_id).cumsum()` over contiguous groups:
state is (previous group id, running sum); the sum restarts whenever the
group id changes. -/
def gcStep (st : Option ℕ × ℕ) (gv : ℕ × ℕ) : (Option ℕ × ℕ) × ℕ :=
  let a := if st.1 = some gv.1 then st.2 + gv.2 else gv.2
  ((some gv.1, a), a)

/-- `groupby(group_id).cumsum()` of (group id, value) pairs. -/
def groupCumsum (l : List (ℕ × ℕ)) : List ℕ :=
  scanMap gcStep (none, 0) l

def stepsList (rs : List DailyBehavior) : List ℚ :=
  rs.map (·.total_steps)

def sleepList (rs : List DailyBehavior) : List ℚ :=
  rs.map (·.sleep_duration_minutes)

/-- The epsilon of features.py guarding divisions by zero. -/
def epsilonQ : ℚ :=
  1 / 1000000

def prevStepsCol (rs : List DailyBehavior) : List (Option ℚ) :=
  shift1 (stepsList rs)

def prevSleepCol (rs : List DailyBehavior) : List (Option ℚ) :=
  shift1 (sleepList rs)

/-- `exercise_done.shift(1).astype(float)` (NaN is preserved by the cast). -/
def prevDoneCol (rs : List DailyBehavior) : List (Option ℚ) :=
  shift1 (rs.map fun r => if r.exercise_done then (1 : ℚ) else 0)

def steps7dAvgCol (rs : List DailyBehavior) : List (Option ℚ) :=
  rollingApply 7 1 qmean (stepsList rs)

def sleep7dAvgCol (rs : List DailyBehavior) : List (Option ℚ) :=
  rollingApply 7 1 qmean (sleepList rs)

/-- Column `sleep_variance_7d` (despite the name it is the rolling
standard deviation, window 7, minimum 3 periods). -/
noncomputable def sleepVar7Col (rs : List DailyBehavior) : List (Option ℝ) :=
  rollingApply 7 3 sampleStd (sleepList rs)

noncomputable def stepsVar7Col (rs : List DailyBehavior) : List (Option ℝ) :=
  rollingApply 7 3 sampleStd (stepsList rs)

/-- Consistency score `1 / (1 + std / (mean + epsilon))`; a NaN rolling
std propagates to a NaN score. -/
noncomputable def sleepConsistencyCol (rs : List DailyBehavior) : List (Option ℝ) :=
  List.zipWith
    (fun sd avg => sd.bind fun s => avg.map fun m =>
      1 / (1 + s / ((m : ℝ) + (epsilonQ : ℝ))))
    (sleepVar7Col rs) (sleep7dAvgCol rs)

/-- The miss indicator of rolling_misses_3d:
`data_missing_flag | (exercise_done == False)`, as 0/1. -/
def missFlagList (rs : List DailyBehavior) : List ℚ :=
  rs.map fun r => if r.data_missing_flag || !r.exercise_done then 1 else 0

/-- Rolling 3-window sum of the miss indicator (min periods defaults to
the window size). -/
def rollingMisses3dCol (rs : List DailyBehavior) : List (Option ℚ) :=
  rollingApply 3 3 (fun w => w.sum) (missFlagList rs)

/-- `is_miss = (~exercise_done).astype(int)`: the run-length indicator of
consecutive_misses uses only `exercise_done`. -/
def isMissList (rs : List DailyBehavior) : List ℕ :=
  rs.map fun r => if r.exercise_done then 0 else 1

/-- `consecutive_misses`: group ids from the change indicator of is_miss,
then the cumulative sum of is_miss within each group. -/
def consecutiveMissesCol (rs : List DailyBehavior) : List ℕ :=
  groupCumsum ((changeGroupIds (isMissList rs)).zip (isMissList rs))

def isRecoveryCol (rs : List DailyBehavior) : List ℕ :=
  (consecutiveMissesCol rs).map fun c => if 0 < c ∧ c < 3 then 1 else 0

def isStreakBreakCol (rs : List DailyBehavior) : List ℕ :=
  (consecutiveMissesCol rs).map fun c => if 4 < c then 1 else 0

def daysSinceWorkoutCol (rs : List DailyBehavior) : List ℕ :=
  List.zipWith (· * ·) (consecutiveMissesCol rs) (isStreakBreakCol rs)

def dayOfWeekCol (rs : List DailyBehavior) : List ℤ :=
  rs.map fun r => r.date % 7

def isWeekendCol (rs : List DailyBehavior) : List ℕ :=
  (dayOfWeekCol rs).map fun d => if d = 5 ∨ d = 6 then 1 else 0

def steps30dAvgCol (rs : List DailyBehavior) : List (Option ℚ) :=
  rollingApply 30 7 qmean (stepsList rs)

def effortRatioCol (rs : List DailyBehavior) : List (Option ℚ) :=
  List.zipWith (fun a b => a.bind fun x => b.map fun y => x / (y + epsilonQ))
    (steps7dAvgCol rs) (steps30dAvgCol rs)

/-- One row of the enhanced feature table: the original fields plus every
derived column of features.py. -/
structure FeatureRow where
  date : ℤ
  total_steps : ℚ
  exercise_minutes : ℚ
  exercise_done : Bool
  sleep_duration_minutes : ℚ
  data_missing_flag : Bool
  prev_steps : ℚ
  prev_sleep_dur : ℚ
  prev_exercise_done : ℚ
  steps_7d_avg : ℚ
  sleep_7d_avg : ℚ
  sleep_variance_7d : ℝ
  steps_variance_7d : ℝ
  sleep_consistency_score : ℝ
  rolling_misses_3d : ℚ
  consecutive_misses : ℕ
  is_recovery_period : ℕ
  is_streak_break : ℕ
  days_since_workout : ℕ
  day_of_week : ℤ
  is_weekend : ℕ
  steps_30d_avg : ℚ
  effort_ratio : ℚ

instance : Inhabited FeatureRow :=
  ⟨{ date := 0, total_steps := 0, exercise_minutes := 0, exercise_done := false,
     sleep_duration_minutes := 0, data_missing_flag := false, prev_steps := 0,
     prev_sleep_dur := 0, prev_exercise_done := 0, steps_7d_avg := 0,
     sleep_7d_avg := 0, sleep_variance_7d := 0, steps_variance_7d := 0,
     sleep_consistency_score := 0, rolling_misses_3d := 0, consecutive_misses := 0,
     is_recovery_period := 0, is_streak_break := 0, days_since_workout := 0,
     day_of_week := 0, is_weekend := 0, steps_30d_avg := 0, effort_ratio := 0 }⟩

namespace FeatureEngineer

/-- Row i of the enhanced table.  Cells that are NaN for lack of window
history are filled with 0, the final `fillna(0)` of enhance. -/
noncomputable def enhanceRow (rs : List DailyBehavior) (i : ℕ) : FeatureRow :=
  { date := (rs.map (·.date)).getD i 0
    total_steps := (stepsList rs).getD i 0
    exercise_minutes := (rs.map (·.exercise_minutes)).getD i 0
    exercise_done := (rs.map (·.exercise_done)).getD i false
    sleep_duration_minutes := (sleepList rs).getD i 0
    data_missing_flag := (rs.map (·.data_missing_flag)).getD i false
    prev_steps := ((prevStepsCol rs).getD i none).getD 0
    prev_sleep_dur := ((prevSleepCol rs).getD i none).getD 0
    prev_exercise_done := ((prevDoneCol rs).getD i none).getD 0
    steps_7d_avg := ((steps7dAvgCol rs).getD i none).getD 0
    sleep_7d_avg := ((sleep7dAvgCol rs).getD i none).getD 0
    sleep_variance_7d := ((sleepVar7Col rs).getD i none).getD 0
    steps_variance_7d := ((stepsVar7Col rs).getD i none).getD 0
    sleep_consistency_score := ((sleepConsistencyCol rs).getD i none).getD 0
    rolling_misses_3d := ((rollingMisses3dCol rs).getD i none).getD 0
    consecutive_misses := (consecutiveMissesCol rs).getD i 0
    is_recovery_period := (isRecoveryCol rs).getD i 0
    is_streak_break := (isStreakBreakCol rs).getD i 0
    days_since_workout := (daysSinceWorkoutCol rs).getD i 0
    day_of_week := (dayOfWeekCol rs).getD i 0
    is_weekend := (isWeekendCol rs).getD i 0
    steps_30d_avg := ((steps30dAvgCol rs).getD i none).getD 0
    effort_ratio := ((effortRatioCol rs).getD i none).getD 0 }

/-- `FeatureEngineer.enhance`: one output row per (date-ordered) input
record; empty input gives the empty table. -/
noncomputable def enhance (rs : List DailyBehavior) : List FeatureRow :=
  (List.range rs.length).map (enhanceRow rs)

end FeatureEngineer

/-- The miss indicator claim C3 asserts for consecutive_misses:
`data_missing_flag` OR not `exercise_done`. -/
def claimMissIndicator (r : DailyBehavior) : Bool :=
  r.data_missing_flag || !r.exercise_done

/-- Run length of consecutive `true` days ending at each position: 0 on a
`false` day, previous + 1 on each further `true` day. -/
def runLensAux : ℕ → List Bool → List ℕ
  | _, [] => []
  | acc, m :: ms =>
    let c := if m then acc + 1 else 0
    c :: runLensAux c ms

def runLens (miss : List Bool) : List ℕ :=
  runLensAux 0 miss

/-! ## BurnoutRiskModel episode segmentation (src/models/burnout.py) -/

/-- A feature-table row as read by `prepare_data` / `_aggregate_period`:
the date index, the exercise flag and the four covariate source columns.
The covariates are opaque numbers already present in the table, modelled
as rationals. -/
structure BRow where
  date : ℤ
  exercise_done : Bool
  sleep_consistency_score : ℚ
  effort_ratio : ℚ
  sleep_variance_7d : ℚ
  exercise_minutes : ℚ
deriving DecidableEq, Repr

/-- One "life" of the survival format.  `duration`, `event` and the four
aggregated covariates are the fields of the source dict; `start` and
`stop` additionally record the endpoints of the aggregated span
(`df.loc[start:stop]`) so that span properties can be stated. -/
structure Episode where
  start : ℤ
  stop : ℤ
  duration : ℤ
  event : ℕ
  avg_sleep_consistency : ℚ
  avg_effort_ratio : ℚ
  avg_sleep_var : ℚ
  initial_motivation : ℚ
deriving DecidableEq, Repr

namespace BurnoutRiskModel

/-- `_aggregate_period`: covariate means over the inclusive date span
`df.loc[start:stop]`; `None` when the span covers fewer than 3 rows. -/
def aggregatePeriod (tbl : List BRow) (start stop : ℤ) (event : ℕ) :
    Option Episode :=
  let subset := tbl.filter fun r => decide (start ≤ r.date) && decide (r.date ≤ stop)
  if subset.length < 3 then none
  else some
    { start := start
      stop := stop
      duration := stop - start
      event := event
      avg_sleep_consistency := qmean (subset.map (·.sleep_consistency_score))
      avg_effort_ratio := qmean (subset.map (·.effort_ratio))
      avg_sleep_var := qmean (subset.map (·.sleep_variance_7d))
      initial_motivation := qmean ((subset.take 3).map (·.exercise_minutes)) }

/-- Accumulator pass of `doneRuns`: `b` is the value of the run being
collected and `cur` its rows so far, most recent first. -/
def runsAux (b : Bool) (cur : List BRow) : List BRow → List (Bool × List BRow)
  | [] => [(b, cur.reverse)]
  | r :: rs =>
    if r.exercise_done == b then runsAux b (r :: cur) rs
    else (b, cur.reverse) :: runsAux r.exercise_done [r] rs

/-- Maximal runs of consecutive rows sharing one `exercise_done` value:
the `miss_groups` grouping (cumulative sum of the change indicator
followed by groupby) yields exactly these runs, each run in row order. -/
def doneRuns : List BRow → List (Bool × List BRow)
  | [] => []
  | r :: rs => runsAux r.exercise_done [r] rs

/-- Death dates: the first day of every miss block (run of
`exercise_done = false`) whose length reaches the dropout threshold. -/
def dropoutDates (threshold : ℕ) (tbl : List BRow) : List ℤ :=
  (doneRuns tbl).filterMap fun br =>
    match br with
    | (_, []) => none
    | (b, r :: rest) =>
      if b = false ∧ threshold ≤ (r :: rest).length then some r.date else none

/-- First day strictly after `d` with `exercise_done = true` (the
restart date), `none` when no such day exists. -/
def nextSuccess (tbl : List BRow) (d : ℤ) : Option ℤ :=
  ((tbl.filter fun r => decide (d < r.date) && r.exercise_done).head?).map (·.date)

/-- The death-date loop of `prepare_data`: processes each death date in
turn against the current episode start.  A death date not strictly after
the current start is skipped entirely (no episode, no restart).  A
processed death date records the died span (when `aggregatePeriod` keeps
it), then restarts at the next success day; when no success day remains
the loop breaks with no open start (`none`). -/
def walkDeaths (tbl : List BRow) : List ℤ → ℤ → List Episode × Option ℤ
  | [], cs => ([], some cs)
  | d :: ds, cs =>
    if cs < d then
      let ep := aggregatePeriod tbl cs d 1
      match nextSuccess tbl d with
      | some ns =>
        let rest := walkDeaths tbl ds ns
        (ep.toList ++ rest.1, rest.2)
      | none => (ep.toList, none)
    else
      walkDeaths tbl ds cs

/-- `prepare_data`: survival-format episodes of the feature table.
`none` models the IndexError the source raises on an empty table
(`df.index[0]`).  With no death dates the whole history is one censored
life; otherwise the death-date loop runs and any remaining open start
closes as a final censored life up to the last day. -/
def prepare_data (threshold : ℕ) (tbl : List BRow) : Option (List Episode) :=
  match tbl.head?, tbl.getLast? with
  | some r0, some rN =>
    let deaths := List.insertionSort (· ≤ ·) (dropoutDates threshold tbl)
    some
      (if deaths.isEmpty then (aggregatePeriod tbl r0.date rN.date 0).toList
       else
         let walked := walkDeaths tbl deaths r0.date
         match walked.2 with
         | some cs =>
           if cs ≤ rN.date then walked.1 ++ (aggregatePeriod tbl cs rN.date 0).toList
           else walked.1
         | none => walked.1)
  | _, _ => none

end BurnoutRiskModel

/-- The death-date walk exactly as claim C2 states it: EVERY death date
closes the span from the current start as a died episode (kept only with
at least 3 rows), after which the walk restarts at the first later
success day, stopping with no trailing censored episode when none
exists. -/
def claimWalk (tbl : List BRow) : List ℤ → ℤ → List Episode × Option ℤ
  | [], cs => ([], some cs)
  | d :: ds, cs =>
    let ep := BurnoutRiskModel.aggregatePeriod tbl cs d 1
    match BurnoutRiskModel.nextSuccess tbl d with
    | some ns =>
      let rest := claimWalk tbl ds ns
      (ep.toList ++ rest.1, rest.2)
    | none => (ep.toList, none)

/-- Episode segmentation exactly as claim C2 states it, with `claimWalk`
in place of the guarded loop of the source. -/
def claimSegmentation (threshold : ℕ) (tbl : List BRow) : Option (List Episode) :=
  match tbl.head?, tbl.getLast? with
  | some r0, some rN =>
    let deaths := List.insertionSort (· ≤ ·) (BurnoutRiskModel.dropoutDates threshold tbl)
    some
      (if deaths.isEmpty then (BurnoutRiskModel.aggregatePeriod tbl r0.date rN.date 0).toList
       else
         let walked := claimWalk tbl deaths r0.date
         match walked.2 with
         | some cs =>
           if cs ≤ rN.date then
             walked.1 ++ (BurnoutRiskModel.aggregatePeriod tbl cs rN.date 0).toList
           else walked.1
         | none => walked.1)
  | _, _ => none

/-- One step of the amended walk as a fold over the death dates (the
"stateful scan" form): state is (episodes so far, open start).  A death
date at or before the open start is skipped without a restart; a later
one closes the died span (kept only with at least 3 rows, the restart
happening either way) and restarts at the next success day or closes the
walk. -/
def amendedStep (tbl : List BRow) (acc : List Episode × Option ℤ) (d : ℤ) :
    List Episode × Option ℤ :=
  match acc.2 with
  | none => acc
  | some cs =>
    if d ≤ cs then acc
    else
      (acc.1 ++ (BurnoutRiskModel.aggregatePeriod tbl cs d 1).toList,
       BurnoutRiskModel.nextSuccess tbl d)

/-- Episode segmentation as amended claim C2 states it: the death dates
are folded through `amendedStep` and a still-open start closes as one
final censored episode up to the last day (its start is a table date, so
it never exceeds the last day). -/
def amendedSegmentation (threshold : ℕ) (tbl : List BRow) : Option (List Episode) :=
  match tbl.head?, tbl.getLast? with
  | some r0, some rN =>
    let deaths := List.insertionSort (· ≤ ·) (BurnoutRiskModel.dropoutDates threshold tbl)
    some
      (if deaths.isEmpty then (BurnoutRiskModel.aggregatePeriod tbl r0.date rN.date 0).toList
       else
         match deaths.foldl (amendedStep tbl) ([], some r0.date) with
         | (eps, some cs) => eps ++ (BurnoutRiskModel.aggregatePeriod tbl cs rN.date 0).toList
         | (eps, none) => eps)
  | _, _ => none

/-- The documented invariant of tables entering the pipeline: strictly
ascending dates (sorted, no duplicate dates). -/
def DatesSorted (tbl : List BRow) : Prop :=
  List.Pairwise (fun a b => a.date < b.date) tbl

/-- A table that is one single qualifying miss block: ten consecutive
miss days. -/
def tenMissDays : List BRow :=
  (List.range 10).map fun i => ⟨(i : ℤ), false, 0, 0, 0, 0⟩

/-- Specification predicate for episode spans: the episodes occupy
pairwise-disjoint ascending date spans starting at or after `lo`, each
with duration equal to its span width, and `out` bounds the day after
the last span (`lo ≤ out` when there is none). -/
def Chain (lo : ℤ) : List Episode → ℤ → Prop
  | [], out => lo ≤ out
  | e :: es, out =>
    lo ≤ e.start ∧ e.start ≤ e.stop ∧ e.duration = e.stop - e.start
      ∧ Chain (e.stop + 1) es out

/-! ## Model lifecycle: train preconditions and untrained inference

Each model object owns an `is_trained` flag and a fitted artifact,
mutated only by `train`; the pair is modelled as a tagged state.  The
third-party fitting routines (scikit-learn, lifelines) are opaque: each
`train` takes the fitting routine as an explicit `fit` argument, so the
theorems below hold for every possible fit outcome. -/

/-- AdherenceModel state: untrained, or the fitted scaler-plus-classifier
pipeline (probability of tomorrow's activity from today's feature row). -/
inductive AdhState where
  | untrained
  | trained (pipeline : FeatureRow → ℚ)

/-- AdherenceModel.train result: the error dict (with a "status" field)
or the metrics dict (which carries no "status" field). -/
inductive AdhTrainResult where
  | error (message : String)
  | metrics (accuracy auc : ℚ) (feature_importance : List (String × ℚ))
deriving DecidableEq, Repr

namespace AdherenceModel

/-- `prepare_data`: target is `exercise_done` shifted back one row and
the final row (whose target is unknown) is dropped; pairs each remaining
row with the next row's label. -/
def prepare_data (tbl : List FeatureRow) : List (FeatureRow × Bool) :=
  (tbl.zip (tbl.drop 1)).map fun p => (p.1, p.2.exercise_done)

/-- `train`: the data-sufficiency check, then the opaque
split/scale/fit/evaluate pipeline supplied as `fit`. -/
def train (fit : List (FeatureRow × Bool) → (FeatureRow → ℚ) × ℚ × ℚ × List (String × ℚ))
    (st : AdhState) (tbl : List FeatureRow) : AdhTrainResult × AdhState :=
  let Xy := prepare_data tbl
  if Xy.length < 10 then (.error "Not enough data to train", st)
  else
    let fitted := fit Xy
    (.metrics fitted.2.1 fitted.2.2.1 fitted.2.2.2, .trained fitted.1)

/-- `predict_next_day_proba`: hard NotTrained error (the raised
ValueError) before a successful train. -/
def predict_next_day_proba (st : AdhState) (row : FeatureRow) : Except String ℚ :=
  match st with
  | .untrained => .error "Model not trained yet"
  | .trained pipeline => .ok (pipeline row)

end AdherenceModel

/-- The value of the "status" key of the result dict, `none` when the
dict has no such key (the metrics dict of a successful adherence train). -/
def adhStatus : AdhTrainResult → Option String
  | .error _ => some "error"
  | .metrics _ _ _ => none

/-- Outcome of a successful lifelines CoxPHFitter fit, opaque:
concordance index, coefficients, and the partial-hazard predictor. -/
structure CoxFit where
  concordance : ℚ
  coefficients : List (String × ℚ)
  predict : List (String × ℚ) → ℚ

inductive BurnoutState where
  | untrained
  | trained (predict : List (String × ℚ) → ℚ)

/-- BurnoutRiskModel.train result dicts, plus `crash` for the IndexError
`prepare_data` raises out of `train` on an empty table (the call sits
before the try block). -/
inductive BurnoutTrainResult where
  | warning (message : String)
  | success (concordance : ℚ) (coefficients : List (String × ℚ))
  | error (message : String)
  | crash
deriving DecidableEq, Repr

namespace BurnoutRiskModel

/-- `train`: builds episodes, requires at least 2, then fits the Cox
model; a raising fit (`Except.error`) is caught and reported as the
error dict, leaving the trained flag unset. -/
def train (fit : List Episode → Except String CoxFit) (st : BurnoutState)
    (threshold : ℕ) (tbl : List BRow) : BurnoutTrainResult × BurnoutState :=
  match prepare_data threshold tbl with
  | none => (.crash, st)
  | some eps =>
    if eps.length < 2 then (.warning "Not enough streaks to train survival model", st)
    else
      match fit eps with
      | .ok c => (.success c.concordance c.coefficients, .trained c.predict)
      | .error e => (.error e, st)

/-- `predict_current_risk`: neutral default risk 0.5 when untrained,
otherwise the fitted partial hazard. -/
def predict_current_risk (st : BurnoutState) (covs : List (String × ℚ)) : ℚ :=
  match st with
  | .untrained => 0.5
  | .trained p => p covs

end BurnoutRiskModel

/-- The "status" field of a burnout train result (`none` for the
uncaught exception, which produces no dict at all). -/
def burnoutStatus : BurnoutTrainResult → Option String
  | .warning _ => some "warning"
  | .success _ _ => some "success"
  | .error _ => some "error"
  | .crash => none

/-- A Python dict value: the result dicts of check_anomaly hold booleans,
floats and strings. -/
inductive JVal where
  | b (x : Bool)
  | q (x : ℚ)
  | s (x : String)
deriving DecidableEq, Repr

abbrev JDict := List (String × JVal)

inductive AnomState where
  | untrained
  | trained (forest : FeatureRow → Bool × ℚ)

inductive AnomTrainResult where
  | error (message : String)
  | success (anomalies_detected_history : ℕ)
deriving DecidableEq, Repr

namespace AnomalyDetector

/-- `train`: requires two weeks of rows, then fits the opaque
scaler-plus-isolation-forest and counts training outliers. -/
def train (fit : List FeatureRow → (FeatureRow → Bool × ℚ) × ℕ)
    (st : AnomState) (tbl : List FeatureRow) : AnomTrainResult × AnomState :=
  if tbl.length < 14 then (.error "Need 2 weeks data", st)
  else
    let f := fit tbl
    (.success f.2, .trained f.1)

/-- `check_anomaly`, returning the literal result dict of the source:
note the untrained dict uses the key "score" where the trained dict uses
"severity_score".  The KeyError branch of the source is unrepresentable
here because the typed feature row always carries the three columns. -/
def check_anomaly (st : AnomState) (day_row : FeatureRow) : JDict :=
  match st with
  | .untrained => [("is_anomaly", .b false), ("score", .q 0)]
  | .trained forest =>
    let pr := forest day_row
    [("is_anomaly", .b pr.1), ("severity_score", .q pr.2)]

end AnomalyDetector

def anomStatus : AnomTrainResult → Option String
  | .error _ => some "error"
  | .success _ => some "success"

/-! ## Theorems -/

/-- With no qualifying dropout events the whole history is at most one
censored episode. -/
lemma prepare_data_no_dropouts (th : ℕ) (tbl : List BRow) (eps : List Episode)
    (hdrop : BurnoutRiskModel.dropoutDates th tbl = [])
    (hprep : BurnoutRiskModel.prepare_data th tbl = some eps) :
    eps.length ≤ 1 ∧ ∀ e ∈ eps, e.event = 0 := by
  unfold BurnoutRiskModel.prepare_data at hprep
  cases h0 : tbl.head? <;> cases hN : tbl.getLast? <;>
    simp [h0, hN, hdrop, List.insertionSort] at hprep
  subst hprep
  unfold BurnoutRiskModel.aggregatePeriod
  dsimp only
  split <;> simp

lemma scanMap_length (f : σ → α → σ × β) : ∀ (s : σ) (l : List α),
    (scanMap f s l).length = l.length := by
  intro s l
  induction l generalizing s with
  | nil => rfl
  | cons x xs ih => simp [scanMap, ih]

lemma consecutiveMissesCol_length (rs : List DailyBehavior) :
    (consecutiveMissesCol rs).length = rs.length := by
  unfold consecutiveMissesCol groupCumsum changeGroupIds isMissList
  rw [scanMap_length, List.length_zip, scanMap_length, List.length_map, min_self]

lemma map_getD_range (l : List α) (d : α) :
    (List.range l.length).map (fun i => l.getD i d) = l := by
  induction l with
  | nil => rfl
  | cons x xs ih =>
    rw [List.length_cons, List.range_succ_eq_map, List.map_cons, List.map_map]
    exact congrArg (x :: ·) ih

lemma enhance_map_consecutive (rs : List DailyBehavior) :
    (FeatureEngineer.enhance rs).map (·.consecutive_misses) = consecutiveMissesCol rs := by
  have h2 := map_getD_range (consecutiveMissesCol rs) 0
  rw [consecutiveMissesCol_length rs] at h2
  calc (FeatureEngineer.enhance rs).map (·.consecutive_misses)
      = (List.range rs.length).map fun i => (consecutiveMissesCol rs).getD i 0 := by
        unfold FeatureEngineer.enhance
        rw [List.map_map]
        rfl
    _ = consecutiveMissesCol rs := h2

/-- The group-then-cumsum pass coincides with the direct run-length fold
from any aligned intermediate state. -/
lemma groupCumsum_runLens_aux (ms : List Bool) : ∀ (v : Bool) (g acc : ℕ),
    (v = false → acc = 0) →
    scanMap gcStep (some g, acc)
      ((scanMap cgStep (some (if v then 1 else 0), g)
          (ms.map fun m => if m then 1 else 0)).zip
        (ms.map fun m => if m then 1 else 0))
      = runLensAux acc ms := by
  induction ms with
  | nil => intro v g acc _; rfl
  | cons m ms ih =>
    intro v g acc hacc
    cases v <;> cases m
    · simp only [scanMap, cgStep, gcStep, runLensAux, List.map_cons, List.zip_cons_cons]
      simp only [hacc rfl]
      simpa using ih false g 0 fun _ => rfl
    · simp only [scanMap, cgStep, gcStep, runLensAux, List.map_cons, List.zip_cons_cons]
      simp only [hacc rfl]
      simpa using ih true (g + 1) 1 (by simp)
    · simp only [scanMap, cgStep, gcStep, runLensAux, List.map_cons, List.zip_cons_cons]
      simpa using ih false (g + 1) 0 fun _ => rfl
    · simp only [scanMap, cgStep, gcStep, runLensAux, List.map_cons, List.zip_cons_cons]
      simpa using ih true g (acc + 1) (by simp)

/-- `consecutive_misses` = the run-length fold over the
not-exercise_done indicator. -/
lemma consecutiveMisses_eq_runLens (rs : List DailyBehavior) :
    consecutiveMissesCol rs = runLens (rs.map fun r => !r.exercise_done) := by
  unfold consecutiveMissesCol runLens changeGroupIds groupCumsum
  have hm : isMissList rs
      = (rs.map fun r => !r.exercise_done).map fun m => if m then 1 else 0 := by
    rw [List.map_map]
    unfold isMissList
    exact List.map_congr_left fun r _ => by cases hr : r.exercise_done <;> simp [hr]
  rw [hm]
  cases hms : rs.map fun r => !r.exercise_done with
  | nil => rfl
  | cons m ms =>
    cases m
    · simp only [List.map_cons, scanMap, cgStep, gcStep, runLensAux, List.zip_cons_cons]
      simpa using groupCumsum_runLens_aux ms false 1 0 fun _ => rfl
    · simp only [List.map_cons, scanMap, cgStep, gcStep, runLensAux, List.zip_cons_cons]
      simpa using groupCumsum_runLens_aux ms true 1 1 (by simp)

/-- C3 counterexample: a single day with data_missing_flag true but
exercise_done true is a miss under the claim's indicator (so the claimed
run length at row 0 is 1), yet the enhanced table carries
consecutive_misses 0 there: the source computes the run length from
exercise_done alone. -/
theorem c3_counterexample_missing_flag_day :
    claimMissIndicator ⟨0, 0, 30, true, 400, true⟩ = true
    ∧ runLens ([⟨0, 0, 30, true, 400, true⟩].map claimMissIndicator) = [1]
    ∧ (FeatureEngineer.enhance [⟨0, 0, 30, true, 400, true⟩]).map
        (·.consecutive_misses) = [0] := by
  refine ⟨rfl, rfl, ?_⟩
  rw [enhance_map_consecutive]
  rfl

/-- C3 (amended): in the enhanced table, consecutive_misses at row i is
the run length of consecutive miss days ending at i where a day is a
miss iff exercise_done is false — data_missing_flag plays no part in
this column (it feeds rolling_misses_3d only).  The value is 0 on every
exercise day, resetting immediately after any day with exercise_done
true, and grows by exactly 1 per further consecutive miss day, which is
precisely the `runLens` fold. -/
theorem c3_consecutive_misses_run_length (rs : List DailyBehavior) :
    (FeatureEngineer.enhance rs).map (·.consecutive_misses)
      = runLens (rs.map fun r => !r.exercise_done) := by
  rw [enhance_map_consecutive]
  exact consecutiveMisses_eq_runLens rs

lemma runsAux_mem (l : List BRow) : ∀ (b : Bool) (cur : List BRow) (p : Bool)
    (run : List BRow), (p, run) ∈ BurnoutRiskModel.runsAux b cur l →
    ∀ x ∈ run, x ∈ cur ∨ x ∈ l := by
  induction l with
  | nil =>
    intro b cur p run hmem x hx
    simp only [BurnoutRiskModel.runsAux, List.mem_singleton, Prod.mk.injEq] at hmem
    rw [hmem.2] at hx
    exact Or.inl (List.mem_reverse.mp hx)
  | cons r rs ih =>
    intro b cur p run hmem x hx
    unfold BurnoutRiskModel.runsAux at hmem
    by_cases hr : r.exercise_done == b
    · rw [if_pos hr] at hmem
      rcases ih b (r :: cur) p run hmem x hx with h | h
      · rcases List.mem_cons.mp h with h | h
        · exact Or.inr (h ▸ List.mem_cons_self ..)
        · exact Or.inl h
      · exact Or.inr (List.mem_cons_of_mem _ h)
    · rw [if_neg hr] at hmem
      rcases List.mem_cons.mp hmem with h | h
      · rw [Prod.mk.injEq] at h
        rw [h.2] at hx
        exact Or.inl (List.mem_reverse.mp hx)
      · rcases ih r.exercise_done [r] p run h x hx with h | h
        · exact Or.inr (List.mem_singleton.mp h ▸ List.mem_cons_self ..)
        · exact Or.inr (List.mem_cons_of_mem _ h)

lemma doneRuns_mem (tbl : List BRow) (p : Bool) (run : List BRow)
    (hmem : (p, run) ∈ BurnoutRiskModel.doneRuns tbl) : ∀ x ∈ run, x ∈ tbl := by
  intro x hx
  cases tbl with
  | nil => cases hmem
  | cons r rs =>
    rcases runsAux_mem rs r.exercise_done [r] p run hmem x hx with h | h
    · exact List.mem_singleton.mp h ▸ List.mem_cons_self ..
    · exact List.mem_cons_of_mem _ h

lemma dropoutDates_mem (th : ℕ) (tbl : List BRow) (d : ℤ)
    (hd : d ∈ BurnoutRiskModel.dropoutDates th tbl) : ∃ r ∈ tbl, r.date = d := by
  unfold BurnoutRiskModel.dropoutDates at hd
  rcases List.mem_filterMap.mp hd with ⟨⟨b, run⟩, hmem, hf⟩
  cases run with
  | nil => simp at hf
  | cons r rest =>
    have hf' : (if b = false ∧ th ≤ (r :: rest).length then some r.date else none)
        = some d := hf
    by_cases hc : b = false ∧ th ≤ (r :: rest).length
    · rw [if_pos hc] at hf'
      injection hf' with hf'
      exact ⟨r, doneRuns_mem tbl b (r :: rest) hmem r (List.mem_cons_self ..), hf'⟩
    · rw [if_neg hc] at hf'
      cases hf'

lemma nextSuccess_facts (tbl : List BRow) (d ns : ℤ)
    (h : BurnoutRiskModel.nextSuccess tbl d = some ns) :
    d < ns ∧ ∃ r ∈ tbl, r.date = ns := by
  unfold BurnoutRiskModel.nextSuccess at h
  cases hh : (tbl.filter fun r => decide (d < r.date) && r.exercise_done).head? with
  | none => rw [hh] at h; cases h
  | some r =>
    rw [hh] at h
    have hr := List.mem_of_mem_head? hh
    have hp := List.of_mem_filter hr
    simp only [Bool.and_eq_true, decide_eq_true_eq] at hp
    injection h with h
    exact h ▸ ⟨hp.1, ⟨r, List.mem_of_mem_filter hr, rfl⟩⟩

lemma DatesSorted.mem_le_last (tbl : List BRow) (rN : BRow)
    (hs : DatesSorted tbl) (hN : tbl.getLast? = some rN) :
    ∀ r ∈ tbl, r.date ≤ rN.date := by
  induction tbl with
  | nil => intro r hr; cases hr
  | cons a t ih =>
    intro r hr
    cases t with
    | nil =>
      simp only [List.getLast?_singleton, Option.some.injEq] at hN
      rw [List.mem_singleton.mp hr, hN]
    | cons b t' =>
      rw [List.getLast?_cons_cons] at hN
      rcases List.mem_cons.mp hr with h | h
      · subst h
        exact le_of_lt ((List.pairwise_cons.mp hs).1 rN (List.mem_of_mem_getLast? hN))
      · exact ih (List.pairwise_cons.mp hs).2 hN r h

lemma foldl_amendedStep_none (tbl : List BRow) (E : List Episode) :
    ∀ ds : List ℤ, ds.foldl (amendedStep tbl) (E, none) = (E, none) := by
  intro ds
  induction ds with
  | nil => rfl
  | cons d ds ih => exact ih

lemma foldl_amendedStep_shift (tbl : List BRow) : ∀ (ds : List ℤ)
    (E : List Episode) (s : Option ℤ),
    ds.foldl (amendedStep tbl) (E, s)
      = (E ++ (ds.foldl (amendedStep tbl) ([], s)).1,
         (ds.foldl (amendedStep tbl) ([], s)).2) := by
  intro ds
  induction ds with
  | nil => intro E s; simp
  | cons d ds ih =>
    intro E s
    cases s with
    | none =>
      rw [foldl_amendedStep_none, foldl_amendedStep_none]
      simp
    | some cs =>
      by_cases hd : d ≤ cs
      · have h1 : amendedStep tbl (E, some cs) d = (E, some cs) := by
          simp [amendedStep, hd]
        have h2 : amendedStep tbl ([], some cs) d = ([], some cs) := by
          simp [amendedStep, hd]
        rw [List.foldl_cons, List.foldl_cons, h1, h2]
        exact ih E (some cs)
      · have h1 : amendedStep tbl (E, some cs) d
            = (E ++ (BurnoutRiskModel.aggregatePeriod tbl cs d 1).toList,
               BurnoutRiskModel.nextSuccess tbl d) := by
          simp [amendedStep, hd]
        have h2 : amendedStep tbl ([], some cs) d
            = ((BurnoutRiskModel.aggregatePeriod tbl cs d 1).toList,
               BurnoutRiskModel.nextSuccess tbl d) := by
          simp [amendedStep, hd]
        rw [List.foldl_cons, List.foldl_cons, h1, h2,
          ih (E ++ (BurnoutRiskModel.aggregatePeriod tbl cs d 1).toList) _,
          ih ((BurnoutRiskModel.aggregatePeriod tbl cs d 1).toList) _]
        simp [List.append_assoc]

lemma walkDeaths_eq_foldl (tbl : List BRow) : ∀ (ds : List ℤ) (cs : ℤ),
    BurnoutRiskModel.walkDeaths tbl ds cs = ds.foldl (amendedStep tbl) ([], some cs) := by
  intro ds
  induction ds with
  | nil => intro cs; rfl
  | cons d ds ih =>
    intro cs
    by_cases hcs : cs < d
    · unfold BurnoutRiskModel.walkDeaths
      rw [if_pos hcs]
      have hstep : amendedStep tbl ([], some cs) d
          = ((BurnoutRiskModel.aggregatePeriod tbl cs d 1).toList,
             BurnoutRiskModel.nextSuccess tbl d) := by
        simp [amendedStep, not_le.mpr hcs]
      rw [List.foldl_cons, hstep]
      cases hns : BurnoutRiskModel.nextSuccess tbl d with
      | some ns =>
        dsimp only
        rw [ih ns, foldl_amendedStep_shift tbl ds
          ((BurnoutRiskModel.aggregatePeriod tbl cs d 1).toList) (some ns)]
      | none =>
        dsimp only
        rw [foldl_amendedStep_none]
    · unfold BurnoutRiskModel.walkDeaths
      rw [if_neg hcs]
      have hstep : amendedStep tbl ([], some cs) d = ([], some cs) := by
        simp [amendedStep, not_lt.mp hcs]
      rw [List.foldl_cons, hstep]
      exact ih cs

lemma walkDeaths_fin_le (tbl : List BRow) (rN : BRow) (hs : DatesSorted tbl)
    (hN : tbl.getLast? = some rN) : ∀ (ds : List ℤ) (cs : ℤ), cs ≤ rN.date →
    ∀ cs', (BurnoutRiskModel.walkDeaths tbl ds cs).2 = some cs' → cs' ≤ rN.date := by
  intro ds
  induction ds with
  | nil =>
    intro cs hcs cs' h
    injection h with h
    exact h ▸ hcs
  | cons d ds ih =>
    intro cs hcs cs' h
    unfold BurnoutRiskModel.walkDeaths at h
    by_cases hlt : cs < d
    · rw [if_pos hlt] at h
      cases hns : BurnoutRiskModel.nextSuccess tbl d with
      | some ns =>
        rw [hns] at h
        dsimp only at h
        obtain ⟨-, r, hr, hrd⟩ := nextSuccess_facts tbl d ns hns
        exact ih ns (hrd ▸ DatesSorted.mem_le_last tbl rN hs hN r hr) cs' h
      | none =>
        rw [hns] at h
        cases h
    · rw [if_neg hlt] at h
      exact ih cs hcs cs' h

/-- C2 (amended): the episode segmentation of prepare_data coincides, on
every date-sorted table, with the amended walk: death dates folded left
to right, a death date at or before the current start skipped entirely
(no episode, no restart — the case of a table starting with a qualifying
miss block), a later death date closing the died span (kept only with at
least 3 rows, the restart to the next success day happening either way),
and a still-open start closing as one final censored episode up to the
last day. -/
theorem c2_prepare_data_is_amended_walk (th : ℕ) (tbl : List BRow)
    (hs : DatesSorted tbl) :
    BurnoutRiskModel.prepare_data th tbl = amendedSegmentation th tbl := by
  unfold BurnoutRiskModel.prepare_data amendedSegmentation
  cases h0 : tbl.head? with
  | none => cases hN : tbl.getLast? <;> rfl
  | some r0 =>
    cases hN : tbl.getLast? with
    | none => rfl
    | some rN =>
      dsimp only
      congr 1
      by_cases hde :
        (List.insertionSort (· ≤ ·) (BurnoutRiskModel.dropoutDates th tbl)).isEmpty
      · rw [if_pos hde, if_pos hde]
      · rw [if_neg hde, if_neg hde,
          walkDeaths_eq_foldl tbl (List.insertionSort (· ≤ ·)
            (BurnoutRiskModel.dropoutDates th tbl)) r0.date]
        cases hF : (List.insertionSort (· ≤ ·)
            (BurnoutRiskModel.dropoutDates th tbl)).foldl
            (amendedStep tbl) ([], some r0.date) with
        | mk eps fin =>
          cases fin with
          | none => rfl
          | some cs =>
            have hw2 : (BurnoutRiskModel.walkDeaths tbl (List.insertionSort (· ≤ ·)
                (BurnoutRiskModel.dropoutDates th tbl)) r0.date).2 = some cs := by
              rw [walkDeaths_eq_foldl, hF]
            have hr0 : r0.date ≤ rN.date :=
              DatesSorted.mem_le_last tbl rN hs hN r0 (List.mem_of_mem_head? h0)
            have hcs : cs ≤ rN.date :=
              walkDeaths_fin_le tbl rN hs hN _ r0.date hr0 cs hw2
            dsimp only
            rw [if_pos hcs]

lemma Chain_mono_lo (lo' lo : ℤ) (h : lo' ≤ lo) (es : List Episode) (out : ℤ)
    (hc : Chain lo es out) : Chain lo' es out := by
  cases es with
  | nil => exact le_trans h hc
  | cons e es => exact ⟨le_trans h hc.1, hc.2⟩

lemma Chain_mono_out (es : List Episode) : ∀ (lo out out' : ℤ), out ≤ out' →
    Chain lo es out → Chain lo es out' := by
  induction es with
  | nil => intro lo out out' h hc; exact le_trans hc h
  | cons e es ih =>
    intro lo out out' h hc
    exact ⟨hc.1, hc.2.1, hc.2.2.1, ih _ _ _ h hc.2.2.2⟩

lemma Chain_append (xs : List Episode) : ∀ (ys : List Episode) (lo m out : ℤ),
    Chain lo xs m → Chain m ys out → Chain lo (xs ++ ys) out := by
  induction xs with
  | nil =>
    intro ys lo m out h1 h2
    exact Chain_mono_lo lo m h1 ys out h2
  | cons a xs ih =>
    intro ys lo m out h1 h2
    exact ⟨h1.1, h1.2.1, h1.2.2.1, ih ys _ m out h1.2.2.2 h2⟩

lemma Chain_mem (es : List Episode) : ∀ (lo out : ℤ), Chain lo es out →
    ∀ e ∈ es, lo ≤ e.start ∧ e.start ≤ e.stop ∧ e.duration = e.stop - e.start := by
  induction es with
  | nil => intro lo out _ e he; cases he
  | cons a es ih =>
    intro lo out hc e he
    obtain ⟨h1, h2, h3, hrest⟩ := hc
    rcases List.mem_cons.mp he with h | h
    · subst h; exact ⟨h1, h2, h3⟩
    · have h5 := ih _ _ hrest e h
      have h6 := h5.1
      exact ⟨by omega, h5.2.1, h5.2.2⟩

lemma Chain_pairwise (es : List Episode) : ∀ (lo out : ℤ), Chain lo es out →
    es.Pairwise fun a b => a.stop < b.start := by
  induction es with
  | nil => intro _ _ _; exact List.Pairwise.nil
  | cons a es ih =>
    intro lo out hc
    obtain ⟨h1, h2, h3, hrest⟩ := hc
    refine List.pairwise_cons.mpr ⟨fun b hb => ?_, ih _ _ hrest⟩
    have h5 := (Chain_mem es _ _ hrest b hb).1
    omega

lemma Chain_sum (es : List Episode) : ∀ (lo out : ℤ), Chain lo es out → es ≠ [] →
    (es.map (·.duration)).sum ≤ out - lo - 1 := by
  induction es with
  | nil => intro _ _ _ h; exact absurd rfl h
  | cons a es ih =>
    intro lo out hc _
    obtain ⟨h1, h2, h3, hrest⟩ := hc
    cases es with
    | nil =>
      have h4 : a.stop + 1 ≤ out := hrest
      simp only [List.map_cons, List.map_nil, List.sum_cons, List.sum_nil, add_zero]
      omega
    | cons b es' =>
      have hsum := ih _ _ hrest (by simp)
      simp only [List.map_cons, List.sum_cons] at hsum ⊢
      omega

lemma aggregatePeriod_facts (tbl : List BRow) (s t : ℤ) (ev : ℕ) (e : Episode)
    (h : BurnoutRiskModel.aggregatePeriod tbl s t ev = some e) :
    e.start = s ∧ e.stop = t ∧ e.duration = t - s ∧ e.event = ev := by
  unfold BurnoutRiskModel.aggregatePeriod at h
  dsimp only at h
  split at h
  · cases h
  · injection h with h
    subst h
    exact ⟨rfl, rfl, rfl, rfl⟩

lemma walkDeaths_chain (tbl : List BRow) (L : ℤ)
    (hdates : ∀ r ∈ tbl, r.date ≤ L) : ∀ (ds : List ℤ) (cs : ℤ),
    (∀ d ∈ ds, d ≤ L) → cs ≤ L →
    ∃ out, Chain cs (BurnoutRiskModel.walkDeaths tbl ds cs).1 out ∧ out ≤ L + 1
      ∧ ∀ cs', (BurnoutRiskModel.walkDeaths tbl ds cs).2 = some cs' →
          out ≤ cs' ∧ cs' ≤ L := by
  intro ds
  induction ds with
  | nil =>
    intro cs _ hcs
    refine ⟨cs, le_refl cs, by omega, fun cs' h => ?_⟩
    injection h with h
    subst h
    exact ⟨le_refl _, hcs⟩
  | cons d ds ih =>
    intro cs hds hcs
    have hdL : d ≤ L := hds d (List.mem_cons_self ..)
    by_cases hlt : cs < d
    · unfold BurnoutRiskModel.walkDeaths
      rw [if_pos hlt]
      cases hns : BurnoutRiskModel.nextSuccess tbl d with
      | some ns =>
        dsimp only
        obtain ⟨hdns, r, hr, hrd⟩ := nextSuccess_facts tbl d ns hns
        have hnsL : ns ≤ L := hrd ▸ hdates r hr
        obtain ⟨out, hchain, houtL, hfin⟩ :=
          ih ns (fun x hx => hds x (List.mem_cons_of_mem _ hx)) hnsL
        refine ⟨out, ?_, houtL, hfin⟩
        cases hagg : BurnoutRiskModel.aggregatePeriod tbl cs d 1 with
        | none =>
          simp only [hagg, Option.toList_none, List.nil_append]
          exact Chain_mono_lo cs ns (by omega) _ _ hchain
        | some e =>
          obtain ⟨he1, he2, he3, -⟩ := aggregatePeriod_facts tbl cs d 1 e hagg
          simp only [hagg, Option.toList_some, List.singleton_append]
          exact ⟨by omega, by omega, by omega,
            Chain_mono_lo (e.stop + 1) ns (by omega) _ _ hchain⟩
      | none =>
        dsimp only
        refine ⟨d + 1, ?_, by omega, fun cs' h => by cases h⟩
        cases hagg : BurnoutRiskModel.aggregatePeriod tbl cs d 1 with
        | none =>
          simp only [hagg, Option.toList_none]
          exact (by omega : cs ≤ d + 1)
        | some e =>
          obtain ⟨he1, he2, he3, -⟩ := aggregatePeriod_facts tbl cs d 1 e hagg
          simp only [hagg, Option.toList_some]
          refine ⟨by omega, by omega, by omega, ?_⟩
          show e.stop + 1 ≤ d + 1
          omega
    · unfold BurnoutRiskModel.walkDeaths
      rw [if_neg hlt]
      exact ih cs (fun x hx => hds x (List.mem_cons_of_mem _ hx)) hcs

lemma prepare_data_chain (th : ℕ) (tbl : List BRow) (eps : List Episode)
    (r0 rN : BRow) (hs : DatesSorted tbl) (h0 : tbl.head? = some r0)
    (hN : tbl.getLast? = some rN)
    (hp : BurnoutRiskModel.prepare_data th tbl = some eps) :
    Chain r0.date eps (rN.date + 1) := by
  have hr0 : r0.date ≤ rN.date :=
    DatesSorted.mem_le_last tbl rN hs hN r0 (List.mem_of_mem_head? h0)
  unfold BurnoutRiskModel.prepare_data at hp
  rw [h0, hN] at hp
  dsimp only at hp
  injection hp with hp
  by_cases hde :
      (List.insertionSort (· ≤ ·) (BurnoutRiskModel.dropoutDates th tbl)).isEmpty
  · rw [if_pos hde] at hp
    subst hp
    cases hagg : BurnoutRiskModel.aggregatePeriod tbl r0.date rN.date 0 with
    | none =>
      simp only [hagg, Option.toList_none]
      exact (by omega : r0.date ≤ rN.date + 1)
    | some e =>
      obtain ⟨h1, h2, h3, -⟩ := aggregatePeriod_facts _ _ _ _ _ hagg
      simp only [hagg, Option.toList_some]
      refine ⟨by omega, by omega, by omega, ?_⟩
      show e.stop + 1 ≤ rN.date + 1
      omega
  · rw [if_neg hde] at hp
    have hLdates : ∀ r ∈ tbl, r.date ≤ rN.date := fun r hr =>
      DatesSorted.mem_le_last tbl rN hs hN r hr
    have hdsL : ∀ d ∈ List.insertionSort (· ≤ ·)
        (BurnoutRiskModel.dropoutDates th tbl), d ≤ rN.date := by
      intro d hd
      obtain ⟨r, hr, hrd⟩ :=
        dropoutDates_mem th tbl d ((List.mem_insertionSort _).mp hd)
      exact hrd ▸ hLdates r hr
    obtain ⟨out, hchain, houtL, hfin⟩ :=
      walkDeaths_chain tbl rN.date hLdates _ r0.date hdsL hr0
    cases hw2 : (BurnoutRiskModel.walkDeaths tbl (List.insertionSort (· ≤ ·)
        (BurnoutRiskModel.dropoutDates th tbl)) r0.date).2 with
    | some cs =>
      obtain ⟨hocs, hcsL⟩ := hfin cs hw2
      rw [hw2] at hp
      dsimp only at hp
      rw [if_pos hcsL] at hp
      subst hp
      cases hagg : BurnoutRiskModel.aggregatePeriod tbl cs rN.date 0 with
      | none =>
        simp only [hagg, Option.toList_none, List.append_nil]
        exact Chain_mono_out _ _ _ _ (by omega) hchain
      | some e =>
        obtain ⟨h1, h2, h3, -⟩ := aggregatePeriod_facts _ _ _ _ _ hagg
        simp only [hagg, Option.toList_some]
        refine Chain_append _ [e] _ out _ hchain ⟨by omega, by omega, by omega, ?_⟩
        exact (by omega : e.stop + 1 ≤ rN.date + 1)
    | none =>
      rw [hw2] at hp
      dsimp only at hp
      subst hp
      exact Chain_mono_out _ _ _ _ (by omega) hchain

/-- C2 counterexample: on a table that is one single qualifying miss
block (ten miss days, threshold 5), the walk exactly as the claim states
it discards the one-day span at the leading death date, finds no restart
day, and stops with no trailing censored episode — an empty episode set —
while prepare_data, whose loop guard skips a death date equal to the
current start without restarting, emits one censored episode (event 0,
duration 9) spanning the whole table. -/
theorem c2_counterexample_leading_miss_block :
    (BurnoutRiskModel.prepare_data 5 tenMissDays).map (List.map (·.event)) = some [0]
    ∧ (BurnoutRiskModel.prepare_data 5 tenMissDays).map (List.map (·.duration))
        = some [9]
    ∧ claimSegmentation 5 tenMissDays = some [] := by
  refine ⟨?_, ?_, ?_⟩ <;> decide

/-- C2 witness: the amended-walk equality applied to a concrete sorted
table. -/
theorem c2_prepare_data_is_amended_walk_witness :
    BurnoutRiskModel.prepare_data 5 tenMissDays = amendedSegmentation 5 tenMissDays :=
  c2_prepare_data_is_amended_walk 5 tenMissDays (by unfold DatesSorted; decide)

/-- C8: on every date-sorted table, the episodes of prepare_data have
non-negative duration equal to their span width, occupy pairwise-disjoint
(strictly ascending) date spans, and their durations sum to at most the
total calendar span of the history — the slack being the discarded
fragments and inter-episode gaps. -/
theorem c8_episode_span_invariants (th : ℕ) (tbl : List BRow)
    (eps : List Episode) (r0 rN : BRow) (hs : DatesSorted tbl)
    (h0 : tbl.head? = some r0) (hN : tbl.getLast? = some rN)
    (hp : BurnoutRiskModel.prepare_data th tbl = some eps) :
    (∀ e ∈ eps, 0 ≤ e.duration ∧ e.duration = e.stop - e.start)
    ∧ eps.Pairwise (fun a b => a.stop < b.start)
    ∧ (eps.map (·.duration)).sum ≤ rN.date - r0.date := by
  have hchain := prepare_data_chain th tbl eps r0 rN hs h0 hN hp
  have hr0 : r0.date ≤ rN.date :=
    DatesSorted.mem_le_last tbl rN hs hN r0 (List.mem_of_mem_head? h0)
  refine ⟨fun e he => ?_, Chain_pairwise eps _ _ hchain, ?_⟩
  · obtain ⟨h1, h2, h3⟩ := Chain_mem eps _ _ hchain e he
    exact ⟨by omega, h3⟩
  · by_cases heps : eps = []
    · subst heps
      simp only [List.map_nil, List.sum_nil]
      omega
    · have := Chain_sum eps _ _ hchain heps
      omega

/-- C8 witness: the invariants applied to a concrete sorted table (one
row; its only candidate episode is discarded as too short, so the
episode set is empty). -/
theorem c8_episode_span_invariants_witness :
    (∀ e ∈ ([] : List Episode), 0 ≤ e.duration ∧ e.duration = e.stop - e.start)
    ∧ ([] : List Episode).Pairwise (fun a b => a.stop < b.start)
    ∧ (([] : List Episode).map (·.duration)).sum
        ≤ (⟨0, true, 0, 0, 0, 0⟩ : BRow).date - (⟨0, true, 0, 0, 0, 0⟩ : BRow).date :=
  c8_episode_span_invariants 5 [⟨0, true, 0, 0, 0, 0⟩] [] ⟨0, true, 0, 0, 0, 0⟩
    ⟨0, true, 0, 0, 0, 0⟩ (by unfold DatesSorted; decide) rfl rfl (by decide)

lemma range_map_getD (f : ℕ → α) (n i : ℕ) (d : α) (h : i < n) :
    ((List.range n).map f).getD i d = f i := by
  rw [List.getD_eq_getElem?_getD, List.getElem?_map]
  simp [List.getElem?_range h]

lemma enhance_getD (rs : List DailyBehavior) (i : ℕ) (h : i < rs.length) :
    (FeatureEngineer.enhance rs).getD i default = FeatureEngineer.enhanceRow rs i := by
  unfold FeatureEngineer.enhance
  exact range_map_getD _ _ _ _ h

lemma rollingApply_getD (k m : ℕ) (f : List ℚ → α) (l : List ℚ) (i : ℕ)
    (h : i < l.length) :
    (rollingApply k m f l).getD i none
      = (if m ≤ ((l.take (i + 1)).drop (i + 1 - k)).length
          then some (f ((l.take (i + 1)).drop (i + 1 - k))) else none) := by
  unfold rollingApply
  exact range_map_getD _ _ _ _ h

lemma sleepWindow_length (rs : List DailyBehavior) (i : ℕ) (h : i < rs.length) :
    (((sleepList rs).take (i + 1)).drop (i + 1 - 7)).length = (i + 1) - (i + 1 - 7) := by
  rw [List.length_drop, List.length_take]
  have hl : (sleepList rs).length = rs.length := by
    unfold sleepList
    exact List.length_map ..
  omega

lemma sleepConsistencyCol_getD (rs : List DailyBehavior) (i : ℕ) (h : i < rs.length) :
    (sleepConsistencyCol rs).getD i none
      = ((sleepVar7Col rs).getD i none).bind fun s =>
          ((sleep7dAvgCol rs).getD i none).map fun m =>
            1 / (1 + s / ((m : ℝ) + (epsilonQ : ℝ))) := by
  have hv : i < (sleepVar7Col rs).length := by
    unfold sleepVar7Col rollingApply sleepList
    simpa using h
  have ha : i < (sleep7dAvgCol rs).length := by
    unfold sleep7dAvgCol rollingApply sleepList
    simpa using h
  unfold sleepConsistencyCol
  rw [List.getD_eq_getElem?_getD, List.getElem?_zipWith', List.getElem?_eq_getElem hv,
    List.getElem?_eq_getElem ha,
    List.getD_eq_getElem?_getD, List.getElem?_eq_getElem hv,
    List.getD_eq_getElem?_getD, List.getElem?_eq_getElem ha]
  simp

/-- The consistency-score transform is bounded in (0, 1] whenever the
window values are non-negative. -/
lemma score_bounds (w : List ℚ) (hw : ∀ x ∈ w, 0 ≤ x) :
    0 < 1 / (1 + sampleStd w / ((qmean w : ℝ) + (epsilonQ : ℝ)))
    ∧ 1 / (1 + sampleStd w / ((qmean w : ℝ) + (epsilonQ : ℝ))) ≤ 1 := by
  have hm : (0 : ℝ) ≤ (qmean w : ℝ) := by
    have hq : (0 : ℚ) ≤ qmean w :=
      div_nonneg (List.sum_nonneg hw) (Nat.cast_nonneg _)
    exact_mod_cast hq
  have hs : 0 ≤ sampleStd w := Real.sqrt_nonneg _
  have he : (0 : ℝ) < (epsilonQ : ℝ) := by norm_num [epsilonQ]
  have hq : 0 ≤ sampleStd w / ((qmean w : ℝ) + (epsilonQ : ℝ)) :=
    div_nonneg hs (by linarith)
  constructor
  · exact one_div_pos.mpr (by linarith)
  · rw [div_le_one (by linarith)]
    linarith

lemma sleepConsistency_fill_zero (rs : List DailyBehavior) (i : ℕ)
    (h : i < rs.length) (h2 : i < 2) :
    ((FeatureEngineer.enhance rs).getD i default).sleep_consistency_score = 0 := by
  rw [enhance_getD rs i h]
  show (((sleepConsistencyCol rs).getD i none).getD 0 : ℝ) = 0
  rw [sleepConsistencyCol_getD rs i h]
  have hl : i < (sleepList rs).length := by
    unfold sleepList
    rw [List.length_map]
    exact h
  unfold sleepVar7Col
  rw [rollingApply_getD 7 3 sampleStd (sleepList rs) i hl,
    if_neg (by rw [sleepWindow_length rs i h]; omega)]
  rfl

/-- C4 counterexample: on a non-empty input the first two rows carry
sleep_consistency_score 0 (the rolling std needs 3 periods, and the NaN
is filled with 0), which is outside the claimed interval (0, 1]. -/
theorem c4_counterexample_first_rows_zero :
    ((FeatureEngineer.enhance
        [⟨0, 0, 0, true, 300, false⟩, ⟨1, 0, 0, true, 330, false⟩,
         ⟨2, 0, 0, true, 360, false⟩]).getD 0 default).sleep_consistency_score = 0
    ∧ ¬ 0 < ((FeatureEngineer.enhance
        [⟨0, 0, 0, true, 300, false⟩, ⟨1, 0, 0, true, 330, false⟩,
         ⟨2, 0, 0, true, 360, false⟩]).getD 0 default).sleep_consistency_score := by
  have h := sleepConsistency_fill_zero
    [⟨0, 0, 0, true, 300, false⟩, ⟨1, 0, 0, true, 330, false⟩,
     ⟨2, 0, 0, true, 360, false⟩] 0 (by norm_num) (by norm_num)
  rw [h]
  simp

/-- C4 (amended): for every input of non-negative sleep durations, every
row from index 2 onward (where the 7-row rolling std has its 3 minimum
periods) has sleep_consistency_score exactly 1 / (1 + std / (mean +
1e-6)) over the 7-row rolling window, a value in (0, 1] that equals 1
when the rolling std is 0; rows 0 and 1 instead carry the fillna value
0. -/
theorem c4_sleep_consistency_score (rs : List DailyBehavior)
    (hpos : ∀ r ∈ rs, 0 ≤ r.sleep_duration_minutes) (i : ℕ) (hi : i < rs.length) :
    (2 ≤ i →
      ((FeatureEngineer.enhance rs).getD i default).sleep_consistency_score
        = 1 / (1 + sampleStd (((sleepList rs).take (i + 1)).drop (i + 1 - 7))
            / ((qmean (((sleepList rs).take (i + 1)).drop (i + 1 - 7)) : ℝ)
                + (epsilonQ : ℝ)))
      ∧ 0 < ((FeatureEngineer.enhance rs).getD i default).sleep_consistency_score
      ∧ ((FeatureEngineer.enhance rs).getD i default).sleep_consistency_score ≤ 1
      ∧ (sampleStd (((sleepList rs).take (i + 1)).drop (i + 1 - 7)) = 0 →
          ((FeatureEngineer.enhance rs).getD i default).sleep_consistency_score = 1))
    ∧ (i < 2 →
      ((FeatureEngineer.enhance rs).getD i default).sleep_consistency_score = 0) := by
  constructor
  · intro h2
    have hl : i < (sleepList rs).length := by
      unfold sleepList
      rw [List.length_map]
      exact hi
    have hval : ((FeatureEngineer.enhance rs).getD i default).sleep_consistency_score
        = 1 / (1 + sampleStd (((sleepList rs).take (i + 1)).drop (i + 1 - 7))
            / ((qmean (((sleepList rs).take (i + 1)).drop (i + 1 - 7)) : ℝ)
                + (epsilonQ : ℝ))) := by
      rw [enhance_getD rs i hi]
      show (((sleepConsistencyCol rs).getD i none).getD 0 : ℝ) = _
      rw [sleepConsistencyCol_getD rs i hi]
      unfold sleepVar7Col sleep7dAvgCol
      rw [rollingApply_getD 7 3 sampleStd (sleepList rs) i hl,
        rollingApply_getD 7 1 qmean (sleepList rs) i hl,
        if_pos (by rw [sleepWindow_length rs i hi]; omega),
        if_pos (by rw [sleepWindow_length rs i hi]; omega)]
      rfl
    have hw : ∀ x ∈ ((sleepList rs).take (i + 1)).drop (i + 1 - 7), 0 ≤ x := by
      intro x hx
      have hx2 : x ∈ sleepList rs := List.mem_of_mem_take (List.mem_of_mem_drop hx)
      obtain ⟨r, hr, hrx⟩ := List.mem_map.mp hx2
      exact hrx ▸ hpos r hr
    obtain ⟨hb1, hb2⟩ := score_bounds _ hw
    refine ⟨hval, hval ▸ hb1, hval ▸ hb2, fun hstd => ?_⟩
    rw [hval, hstd]
    simp
  · intro h2
    exact sleepConsistency_fill_zero rs i hi h2

/-- C4 witness: the amended statement applied at row 2 of a concrete
table. -/
theorem c4_sleep_consistency_score_witness :
    0 < ((FeatureEngineer.enhance
        [⟨0, 0, 0, true, 300, false⟩, ⟨1, 0, 0, true, 330, false⟩,
         ⟨2, 0, 0, true, 360, false⟩]).getD 2 default).sleep_consistency_score
    ∧ ((FeatureEngineer.enhance
        [⟨0, 0, 0, true, 300, false⟩, ⟨1, 0, 0, true, 330, false⟩,
         ⟨2, 0, 0, true, 360, false⟩]).getD 2 default).sleep_consistency_score ≤ 1 := by
  have h := (c4_sleep_consistency_score
    [⟨0, 0, 0, true, 300, false⟩, ⟨1, 0, 0, true, 330, false⟩,
     ⟨2, 0, 0, true, 360, false⟩]
    (by intro r hr; fin_cases hr <;> norm_num) 2 (by norm_num)).1 (by norm_num)
  exact ⟨h.2.1, h.2.2.1⟩

lemma take_min_length_eq (a b : List α) (n : ℕ) (h : a.take n = b.take n) :
    min n a.length = min n b.length := by
  have hc := congrArg List.length h
  simpa [List.length_take] using hc

lemma getElem?_congr_take (a b : List α) (n i : ℕ) (h : a.take n = b.take n)
    (hi : i < n) : a[i]? = b[i]? :=
  calc a[i]? = (a.take n)[i]? := (List.getElem?_take_of_lt hi).symm
    _ = (b.take n)[i]? := by rw [h]
    _ = b[i]? := List.getElem?_take_of_lt hi

lemma getD_congr_take (a b : List α) (n i : ℕ) (d : α) (h : a.take n = b.take n)
    (hi : i < n) : a.getD i d = b.getD i d := by
  rw [List.getD_eq_getElem?_getD, List.getD_eq_getElem?_getD,
    getElem?_congr_take a b n i h hi]

lemma map_congr_take (f : α → β) (a b : List α) (n : ℕ)
    (h : a.take n = b.take n) : (a.map f).take n = (b.map f).take n := by
  rw [← List.map_take, ← List.map_take, h]

lemma take_range_map (g : ℕ → α) (len n : ℕ) :
    ((List.range len).map g).take n = (List.range (min n len)).map g := by
  rw [← List.map_take, List.take_range]

lemma shift1_congr_take (a b : List α) (n : ℕ) (h : a.take n = b.take n) :
    (shift1 a).take n = (shift1 b).take n := by
  have hmin := take_min_length_eq a b n h
  unfold shift1
  rw [take_range_map, take_range_map, hmin]
  apply List.map_congr_left
  intro i hi
  have hin : i < n := by
    have := List.mem_range.mp hi
    omega
  by_cases h0 : i = 0
  · simp [h0]
  · rw [if_neg h0, if_neg h0]
    exact getElem?_congr_take a b n (i - 1) h (by omega)

lemma rollingApply_congr_take (k m : ℕ) (f : List ℚ → α) (a b : List ℚ) (n : ℕ)
    (h : a.take n = b.take n) :
    (rollingApply k m f a).take n = (rollingApply k m f b).take n := by
  have hmin := take_min_length_eq a b n h
  unfold rollingApply
  rw [take_range_map, take_range_map, hmin]
  apply List.map_congr_left
  intro i hi
  have hin : i < n := by
    have := List.mem_range.mp hi
    omega
  have hw : a.take (i + 1) = b.take (i + 1) := by
    have hq : (a.take n).take (i + 1) = (b.take n).take (i + 1) := by rw [h]
    rwa [List.take_take, List.take_take, Nat.min_eq_left (by omega)] at hq
  rw [hw]

lemma zipWith_congr_take (f : α → β → γ) (a1 a2 : List α) (b1 b2 : List β)
    (n : ℕ) (ha : a1.take n = a2.take n) (hb : b1.take n = b2.take n) :
    (List.zipWith f a1 b1).take n = (List.zipWith f a2 b2).take n := by
  rw [List.take_zipWith, List.take_zipWith, ha, hb]

lemma scanMap_congr_take (f : σ → α → σ × β) : ∀ (n : ℕ) (s : σ)
    (a b : List α), a.take n = b.take n →
    (scanMap f s a).take n = (scanMap f s b).take n := by
  intro n
  induction n with
  | zero => intro s a b _; simp
  | succ n ih =>
    intro s a b h
    cases a with
    | nil =>
      cases b with
      | nil => rfl
      | cons y ys => simp at h
    | cons x xs =>
      cases b with
      | nil => simp at h
      | cons y ys =>
        rw [List.take_succ_cons, List.take_succ_cons] at h
        injection h with h1 h2
        subst h1
        simp only [scanMap, List.take_succ_cons]
        rw [ih _ xs ys h2]

lemma consecutiveMissesCol_congr_take (rs1 rs2 : List DailyBehavior) (n : ℕ)
    (h : rs1.take n = rs2.take n) :
    (consecutiveMissesCol rs1).take n = (consecutiveMissesCol rs2).take n := by
  have hmiss : (isMissList rs1).take n = (isMissList rs2).take n := by
    unfold isMissList
    exact map_congr_take _ _ _ n h
  have hgid : (changeGroupIds (isMissList rs1)).take n
      = (changeGroupIds (isMissList rs2)).take n := by
    unfold changeGroupIds
    exact scanMap_congr_take _ n _ _ _ hmiss
  unfold consecutiveMissesCol groupCumsum
  exact scanMap_congr_take _ n _ _ _
    (zipWith_congr_take Prod.mk _ _ _ _ n hgid hmiss)

lemma enhanceRow_congr (rs1 rs2 : List DailyBehavior) (n i : ℕ)
    (h : rs1.take n = rs2.take n) (hi : i < n) :
    FeatureEngineer.enhanceRow rs1 i = FeatureEngineer.enhanceRow rs2 i := by
  have hsteps : (stepsList rs1).take n = (stepsList rs2).take n := by
    unfold stepsList; exact map_congr_take _ _ _ n h
  have hsleep : (sleepList rs1).take n = (sleepList rs2).take n := by
    unfold sleepList; exact map_congr_take _ _ _ n h
  have hmiss : (missFlagList rs1).take n = (missFlagList rs2).take n := by
    unfold missFlagList; exact map_congr_take _ _ _ n h
  have hdone : ((rs1.map fun r => if r.exercise_done then (1 : ℚ) else 0)).take n
      = ((rs2.map fun r => if r.exercise_done then (1 : ℚ) else 0)).take n :=
    map_congr_take _ _ _ n h
  have hcm := consecutiveMissesCol_congr_take rs1 rs2 n h
  have hdow : (dayOfWeekCol rs1).take n = (dayOfWeekCol rs2).take n := by
    unfold dayOfWeekCol; exact map_congr_take _ _ _ n h
  have hs7 : (steps7dAvgCol rs1).take n = (steps7dAvgCol rs2).take n := by
    unfold steps7dAvgCol; exact rollingApply_congr_take _ _ _ _ _ n hsteps
  have hsl7 : (sleep7dAvgCol rs1).take n = (sleep7dAvgCol rs2).take n := by
    unfold sleep7dAvgCol; exact rollingApply_congr_take _ _ _ _ _ n hsleep
  have hsv7 : (sleepVar7Col rs1).take n = (sleepVar7Col rs2).take n := by
    unfold sleepVar7Col; exact rollingApply_congr_take _ _ _ _ _ n hsleep
  have hstv7 : (stepsVar7Col rs1).take n = (stepsVar7Col rs2).take n := by
    unfold stepsVar7Col; exact rollingApply_congr_take _ _ _ _ _ n hsteps
  have hs30 : (steps30dAvgCol rs1).take n = (steps30dAvgCol rs2).take n := by
    unfold steps30dAvgCol; exact rollingApply_congr_take _ _ _ _ _ n hsteps
  have hps : (prevStepsCol rs1).take n = (prevStepsCol rs2).take n := by
    unfold prevStepsCol
    exact shift1_congr_take _ _ n hsteps
  have hpsl : (prevSleepCol rs1).take n = (prevSleepCol rs2).take n := by
    unfold prevSleepCol
    exact shift1_congr_take _ _ n hsleep
  have hpd : (prevDoneCol rs1).take n = (prevDoneCol rs2).take n := by
    unfold prevDoneCol
    exact shift1_congr_take _ _ n hdone
  have hsc : (sleepConsistencyCol rs1).take n = (sleepConsistencyCol rs2).take n := by
    unfold sleepConsistencyCol
    exact zipWith_congr_take _ _ _ _ _ n hsv7 hsl7
  have hrm : (rollingMisses3dCol rs1).take n = (rollingMisses3dCol rs2).take n := by
    unfold rollingMisses3dCol
    exact rollingApply_congr_take _ _ _ _ _ n hmiss
  have hrec : (isRecoveryCol rs1).take n = (isRecoveryCol rs2).take n := by
    unfold isRecoveryCol
    exact map_congr_take _ _ _ n hcm
  have hbrk : (isStreakBreakCol rs1).take n = (isStreakBreakCol rs2).take n := by
    unfold isStreakBreakCol
    exact map_congr_take _ _ _ n hcm
  have hdsw : (daysSinceWorkoutCol rs1).take n = (daysSinceWorkoutCol rs2).take n := by
    unfold daysSinceWorkoutCol
    exact zipWith_congr_take _ _ _ _ _ n hcm hbrk
  have hwkd : (isWeekendCol rs1).take n = (isWeekendCol rs2).take n := by
    unfold isWeekendCol
    exact map_congr_take _ _ _ n hdow
  have her : (effortRatioCol rs1).take n = (effortRatioCol rs2).take n := by
    unfold effortRatioCol
    exact zipWith_congr_take _ _ _ _ _ n hs7 hs30
  unfold FeatureEngineer.enhanceRow
  simp only [getD_congr_take _ _ n i _ (map_congr_take (·.date) rs1 rs2 n h) hi,
    getD_congr_take _ _ n i _ (map_congr_take (·.exercise_minutes) rs1 rs2 n h) hi,
    getD_congr_take _ _ n i _ (map_congr_take (·.exercise_done) rs1 rs2 n h) hi,
    getD_congr_take _ _ n i _ (map_congr_take (·.data_missing_flag) rs1 rs2 n h) hi,
    getD_congr_take _ _ n i _ hsteps hi,
    getD_congr_take _ _ n i _ hsleep hi,
    getD_congr_take _ _ n i _ hps hi,
    getD_congr_take _ _ n i _ hpsl hi,
    getD_congr_take _ _ n i _ hpd hi,
    getD_congr_take _ _ n i _ hs7 hi,
    getD_congr_take _ _ n i _ hsl7 hi,
    getD_congr_take _ _ n i _ hsv7 hi,
    getD_congr_take _ _ n i _ hstv7 hi,
    getD_congr_take _ _ n i _ hsc hi,
    getD_congr_take _ _ n i _ hrm hi,
    getD_congr_take _ _ n i _ hcm hi,
    getD_congr_take _ _ n i _ hrec hi,
    getD_congr_take _ _ n i _ hbrk hi,
    getD_congr_take _ _ n i _ hdsw hi,
    getD_congr_take _ _ n i _ hdow hi,
    getD_congr_take _ _ n i _ hwkd hi,
    getD_congr_take _ _ n i _ hs30 hi,
    getD_congr_take _ _ n i _ her hi]

/-- C5: enhance has no lookahead: two inputs that agree on their first n
records (in date order) produce tables that agree on their first n rows,
on every column; every derived value at row i is a function only of
records at positions up to i. -/
theorem c5_no_lookahead (rs1 rs2 : List DailyBehavior) (n : ℕ)
    (h : rs1.take n = rs2.take n) :
    (FeatureEngineer.enhance rs1).take n = (FeatureEngineer.enhance rs2).take n := by
  unfold FeatureEngineer.enhance
  rw [take_range_map, take_range_map, take_min_length_eq rs1 rs2 n h]
  apply List.map_congr_left
  intro i hi
  refine enhanceRow_congr rs1 rs2 n i h ?_
  have := List.mem_range.mp hi
  omega

/-- C5 witness: two histories sharing their first record but diverging
on the second produce the same first output row. -/
theorem c5_no_lookahead_witness :
    (FeatureEngineer.enhance
        [⟨0, 0, 0, true, 300, false⟩, ⟨1, 5000, 30, true, 400, false⟩]).take 1
      = (FeatureEngineer.enhance
        [⟨0, 0, 0, true, 300, false⟩, ⟨1, 0, 0, false, 100, true⟩]).take 1 :=
  c5_no_lookahead _ _ 1 rfl

/-- C6: each train operation enforces its data-sufficiency precondition
by returning a structured non-success result, never by raising:
adherence below 10 prepared rows, burnout below 2 episodes (in
particular any table with zero qualifying dropout events yields at most
one censored episode and never a success status), anomaly below 14 rows.
The caller branches on the result constructor / status field, not on the
message text. -/
theorem c6_insufficient_data_is_structured :
    (∀ fit st tbl, (AdherenceModel.prepare_data tbl).length < 10 →
      AdherenceModel.train fit st tbl = (.error "Not enough data to train", st)
      ∧ adhStatus (AdherenceModel.train fit st tbl).1 = some "error")
    ∧ (∀ fit st th tbl eps, BurnoutRiskModel.prepare_data th tbl = some eps →
        eps.length < 2 →
        BurnoutRiskModel.train fit st th tbl
          = (.warning "Not enough streaks to train survival model", st)
        ∧ burnoutStatus (BurnoutRiskModel.train fit st th tbl).1 = some "warning")
    ∧ (∀ th tbl eps, BurnoutRiskModel.dropoutDates th tbl = [] →
        BurnoutRiskModel.prepare_data th tbl = some eps →
        eps.length ≤ 1 ∧ ∀ e ∈ eps, e.event = 0)
    ∧ (∀ fit st th tbl, BurnoutRiskModel.dropoutDates th tbl = [] →
        burnoutStatus (BurnoutRiskModel.train fit st th tbl).1 ≠ some "success")
    ∧ (∀ fit st tbl, tbl.length < 14 →
        AnomalyDetector.train fit st tbl = (.error "Need 2 weeks data", st)
        ∧ anomStatus (AnomalyDetector.train fit st tbl).1 = some "error") := by
  refine ⟨fun fit st tbl h => ?_, fun fit st th tbl eps hprep hlen => ?_,
    fun th tbl eps hdrop hprep => prepare_data_no_dropouts th tbl eps hdrop hprep,
    fun fit st th tbl hdrop => ?_, fun fit st tbl h => ?_⟩
  · unfold AdherenceModel.train
    simp [h, adhStatus]
  · unfold BurnoutRiskModel.train
    rw [hprep]
    simp [hlen, burnoutStatus]
  · unfold BurnoutRiskModel.train
    cases hprep : BurnoutRiskModel.prepare_data th tbl with
    | none => simp [burnoutStatus]
    | some eps =>
      have hle := (prepare_data_no_dropouts th tbl eps hdrop hprep).1
      have hlt : eps.length < 2 := Nat.lt_of_le_of_lt hle (by norm_num)
      simp [hlt, burnoutStatus]
  · unfold AnomalyDetector.train
    simp [h, anomStatus]

/-- C6 witness: the theorem applied at concrete insufficient inputs. -/
theorem c6_insufficient_data_is_structured_witness :
    AdherenceModel.train (fun _ => (fun _ => 0, 0, 0, [])) .untrained []
      = (.error "Not enough data to train", .untrained)
    ∧ BurnoutRiskModel.train (fun _ => .error "fit") .untrained 5
        [⟨0, true, 1, 1, 0, 5⟩]
      = (.warning "Not enough streaks to train survival model", .untrained)
    ∧ burnoutStatus (BurnoutRiskModel.train (fun _ => .error "fit") .untrained 5
        [⟨0, false, 1, 1, 0, 5⟩]).1 ≠ some "success"
    ∧ AnomalyDetector.train (fun _ => (fun _ => (false, 0), 0)) .untrained []
      = (.error "Need 2 weeks data", .untrained) := by
  refine ⟨(c6_insufficient_data_is_structured.1 _ _ _ (by decide)).1,
    (c6_insufficient_data_is_structured.2.1 _ _ 5 _ [] (by decide) (by decide)).1,
    c6_insufficient_data_is_structured.2.2.2.1 _ _ 5 _ (by decide),
    (c6_insufficient_data_is_structured.2.2.2.2 _ _ _ (by decide)).1⟩

/-- C7 counterexample: the claim asserts the untrained check_anomaly
record carries the is_anomaly and severity_score fields of the §6
contract, but the untrained result dict has no "severity_score" key at
all: its score is stored under the key "score". -/
theorem c7_counterexample_score_key :
    (AnomalyDetector.check_anomaly .untrained default).lookup "severity_score" = none
    ∧ (AnomalyDetector.check_anomaly .untrained default).lookup "score"
        = some (.q 0) := by
  exact ⟨rfl, rfl⟩

/-- C7 (amended): for inference before a successful train, adherence
fails with the NotTrained error, burnout returns the neutral default
0.5, and anomaly returns a dict with is_anomaly false and a zero score —
stored under the key "score", unlike the trained path, which uses the §6
field name "severity_score". -/
theorem c7_untrained_inference :
    (∀ row, AdherenceModel.predict_next_day_proba .untrained row
        = .error "Model not trained yet")
    ∧ (∀ covs, BurnoutRiskModel.predict_current_risk .untrained covs = 0.5)
    ∧ (∀ row, AnomalyDetector.check_anomaly .untrained row
        = [("is_anomaly", .b false), ("score", .q 0)])
    ∧ (∀ forest row, AnomalyDetector.check_anomaly (.trained forest) row
        = [("is_anomaly", .b (forest row).1), ("severity_score", .q (forest row).2)]) :=
  ⟨fun _ => rfl, fun _ => rfl, fun _ => rfl, fun _ _ => rfl⟩

/-- C10: a non-success train result (insufficient data, or a failed Cox
fit) leaves a previously-untrained model untrained, and every subsequent
inference call behaves exactly as on a never-trained model. -/
theorem c10_failed_train_stays_untrained :
    (∀ fit tbl m, (AdherenceModel.train fit .untrained tbl).1 = .error m →
      (AdherenceModel.train fit .untrained tbl).2 = AdhState.untrained
      ∧ ∀ row, AdherenceModel.predict_next_day_proba
          (AdherenceModel.train fit .untrained tbl).2 row
          = .error "Model not trained yet")
    ∧ (∀ fit th tbl,
        burnoutStatus (BurnoutRiskModel.train fit .untrained th tbl).1 ≠ some "success" →
        (BurnoutRiskModel.train fit .untrained th tbl).2 = BurnoutState.untrained
        ∧ ∀ covs, BurnoutRiskModel.predict_current_risk
            (BurnoutRiskModel.train fit .untrained th tbl).2 covs = 0.5)
    ∧ (∀ fit tbl m, (AnomalyDetector.train fit .untrained tbl).1 = .error m →
        (AnomalyDetector.train fit .untrained tbl).2 = AnomState.untrained
        ∧ ∀ row, AnomalyDetector.check_anomaly
            (AnomalyDetector.train fit .untrained tbl).2 row
            = [("is_anomaly", .b false), ("score", .q 0)]) := by
  refine ⟨fun fit tbl m h => ?_, fun fit th tbl h => ?_, fun fit tbl m h => ?_⟩
  · unfold AdherenceModel.train at h ⊢
    by_cases hlen : (AdherenceModel.prepare_data tbl).length < 10
    · simp [hlen]
      exact fun _ => rfl
    · simp [hlen] at h
  · unfold BurnoutRiskModel.train at h ⊢
    cases hprep : BurnoutRiskModel.prepare_data th tbl with
    | none => simp; exact fun _ => rfl
    | some eps =>
      rw [hprep] at h
      by_cases hlen : eps.length < 2
      · simp [hprep, hlen]
        exact fun _ => rfl
      · cases hfit : fit eps with
        | ok c => simp [hlen, hfit, burnoutStatus] at h
        | error e => simp [hprep, hlen, hfit]; exact fun _ => rfl
  · unfold AnomalyDetector.train at h ⊢
    by_cases hlen : tbl.length < 14
    · simp [hlen]
      exact fun _ => rfl
    · simp [hlen] at h

/-- C10 witness: the theorem applied at concrete failing train calls. -/
theorem c10_failed_train_stays_untrained_witness :
    (AdherenceModel.train (fun _ => (fun _ => 0, 0, 0, [])) .untrained []).2
      = AdhState.untrained
    ∧ (BurnoutRiskModel.train (fun _ => .error "singular matrix") .untrained 5
        []).2 = BurnoutState.untrained
    ∧ (AnomalyDetector.train (fun _ => (fun _ => (false, 0), 0)) .untrained []).2
      = AnomState.untrained :=
  ⟨(c10_failed_train_stays_untrained.1 (fun _ => (fun _ => 0, 0, 0, [])) []
      "Not enough data to train" rfl).1,
   (c10_failed_train_stays_untrained.2.1 (fun _ => .error "singular matrix") 5 []
      (by decide)).1,
   (c10_failed_train_stays_untrained.2.2 (fun _ => (fun _ => (false, 0), 0)) []
      "Need 2 weeks data" rfl).1⟩

/-- C1: the engine is the decision table `cascadeTable` evaluated in
strict priority order with the first matching branch winning; at priority
4 the message branches on `consecutive_misses ≤ 7` versus `> 7`; for every
input with sleep ≥ 180, no anomaly, burnout risk 1.5 and adherence 0.9
the type is `scale_down`; and sleep 120 forces type `recovery` regardless
of the other inputs. -/
theorem c1_recommendation_cascade :
    (∀ u d ap br an rf,
      (RecommendationEngine.generate_recommendation u d ap br an rf).recommendation_type
        = firstMatch RecommendationType.maintain
            (cascadeTable ap br an (rf.sleep_duration_minutes.getD 480)))
    ∧ (∀ u d ap br an rf,
        ¬ rf.sleep_duration_minutes.getD 480 < 180 → an = false →
        ¬ br > 1.2 → ap < 0.4 →
        (RecommendationEngine.generate_recommendation u d ap br an rf).message_title
          = (if rf.consecutive_misses.getD 0 ≤ 7 then "Don't break the chain"
             else "Everything okay?"))
    ∧ (∀ u d rf, (180 : ℚ) ≤ rf.sleep_duration_minutes.getD 480 →
        (RecommendationEngine.generate_recommendation u d 0.9 1.5 false rf).recommendation_type
          = RecommendationType.scale_down)
    ∧ (∀ u d ap br an rf, rf.sleep_duration_minutes = some 120 →
        (RecommendationEngine.generate_recommendation u d ap br an rf).recommendation_type
          = RecommendationType.recovery) := by
  refine ⟨fun u d ap br an rf => ?_, fun u d ap br an rf h0 h1 h2 h3 => ?_,
    fun u d rf h => ?_, fun u d ap br an rf h => ?_⟩
  · unfold RecommendationEngine.generate_recommendation cascadeTable
    by_cases hs : rf.sleep_duration_minutes.getD 480 < 180 <;>
      by_cases ha : an = true <;>
      by_cases hb : br > 1.2 <;>
      by_cases h4 : ap < 0.4 <;>
      by_cases h5 : ap < 0.5 <;>
      by_cases h7 : ap ≤ 0.7 <;>
      simp [hs, ha, hb, h4, h5, h7, firstMatch]
  · unfold RecommendationEngine.generate_recommendation
    by_cases hm : rf.consecutive_misses.getD 0 ≤ 7 <;> simp [h0, h1, h2, h3, hm]
  · unfold RecommendationEngine.generate_recommendation
    simp only [not_lt.mpr h, if_false]
    norm_num
  · unfold RecommendationEngine.generate_recommendation
    simp only [h, Option.getD_some]
    norm_num

/-- C1 witness: the cascade theorem applied at concrete inputs. -/
theorem c1_recommendation_cascade_witness :
    (RecommendationEngine.generate_recommendation "u" "2024-01-01" 0.9 1.5 false
        ⟨some 400, some 2⟩).recommendation_type = RecommendationType.scale_down
    ∧ (RecommendationEngine.generate_recommendation "u" "2024-01-01" 0.1 0.2 false
        ⟨some 400, some 9⟩).message_title = "Everything okay?"
    ∧ (RecommendationEngine.generate_recommendation "u" "2024-01-01" 0.99 0.1 false
        ⟨some 120, none⟩).recommendation_type = RecommendationType.recovery := by
  refine ⟨c1_recommendation_cascade.2.2.1 _ _ _ (by norm_num), ?_, ?_⟩
  · have h := c1_recommendation_cascade.2.1 "u" "2024-01-01" 0.1 0.2 false
      ⟨some 400, some 9⟩ (by norm_num) rfl (by norm_num) (by norm_num)
    simpa using h
  · exact c1_recommendation_cascade.2.2.2 _ _ _ _ _ _ rfl

/-- C9: a feature row with no `sleep_duration_minutes` entry is evaluated
with the default of 480 minutes, so it can never trigger the priority-1
sleep-deprivation recovery branch. -/
theorem c9_missing_sleep_defaults_to_480 :
    ∀ u d ap br an rf, rf.sleep_duration_minutes = none →
      RecommendationEngine.generate_recommendation u d ap br an rf
        = RecommendationEngine.generate_recommendation u d ap br an
            { rf with sleep_duration_minutes := some 480 }
      ∧ (RecommendationEngine.generate_recommendation u d ap br an rf).message_title
          ≠ "Sleep First, Train Later" := by
  intro u d ap br an rf h
  constructor
  · unfold RecommendationEngine.generate_recommendation
    rw [h]
    rfl
  · unfold RecommendationEngine.generate_recommendation
    rw [h]
    norm_num
    split_ifs <;> simp

/-- C9 witness: the theorem applied to a concrete row lacking sleep data. -/
theorem c9_missing_sleep_defaults_to_480_witness :
    RecommendationEngine.generate_recommendation "u" "2024-01-01" 0.3 0.1 false ⟨none, some 2⟩
      = RecommendationEngine.generate_recommendation "u" "2024-01-01" 0.3 0.1 false
          ⟨some 480, some 2⟩
    ∧ (RecommendationEngine.generate_recommendation "u" "2024-01-01" 0.3 0.1 false
        ⟨none, some 2⟩).message_title ≠ "Sleep First, Train Later" :=
  c9_missing_sleep_defaults_to_480 "u" "2024-01-01" 0.3 0.1 false ⟨none, some 2⟩ rfl
